/-
Verification of the directory-to-S3 synchronization engine
(tools/s3_rsync.py) against its natural-language specification.

The Python module is shallowly embedded: pure helpers become Lean
functions; the S3 client, the filesystem and the thread pool become
explicit parameters and state passing (the worker pool is modelled as
sequential left-to-right processing of the scanned file list, i.e. the
single-worker schedule).  Python dictionaries are modelled as
association lists consulted through `alGet`; Python string truthiness
(`if s:`) is modelled by explicit tests against `""`/`none`.
-/
import Mathlib

set_option linter.unusedVariables false

namespace S3Rsync

/-! ### Association lists (model of Python `dict`)

`alPut` prepends, so `alGet` sees the newest binding first: observationally
identical to `dict` assignment.  `alErase` models `dict.pop(k, None)`. -/

def alGet {α : Type} (l : List (String × α)) (k : String) : Option α :=
  match l with
  | [] => none
  | (k', v) :: rest => if k' = k then some v else alGet rest k

def alPut {α : Type} (l : List (String × α)) (k : String) (v : α) : List (String × α) :=
  (k, v) :: l

def alErase {α : Type} (l : List (String × α)) (k : String) : List (String × α) :=
  l.filter (fun p => ¬ (p.1 = k))

@[simp] theorem alGet_nil {α : Type} (k : String) : alGet ([] : List (String × α)) k = none := rfl

@[simp] theorem alGet_cons {α : Type} (k' k : String) (v : α) (l : List (String × α)) :
    alGet ((k', v) :: l) k = if k' = k then some v else alGet l k := rfl

@[simp] theorem alGet_alPut_self {α : Type} (l : List (String × α)) (k : String) (v : α) :
    alGet (alPut l k v) k = some v := by
  simp [alPut]

theorem alGet_alPut_ne {α : Type} (l : List (String × α)) (k k' : String) (v : α)
    (h : k ≠ k') : alGet (alPut l k v) k' = alGet l k' := by
  simp [alPut, h]

theorem alGet_alErase_self {α : Type} (l : List (String × α)) (k : String) :
    alGet (alErase l k) k = none := by
  induction l with
  | nil => rfl
  | cons p rest ih =>
    by_cases h : p.1 = k
    · simpa [alErase, h] using ih
    · cases p with
      | mk k' v => simp_all [alErase, alGet]

/-! ### Python string operations used by the dedup resolver

Python slices strings by code points; Lean `String.data` is the list of
code points, so `startswith` and prefix removal are modelled on
`String.data`.  `str.replace(pre, "", 1)` applied to a string that starts
with `pre` removes precisely that leading occurrence, which is how the
source uses it (guarded by `startswith`). -/

def pyStartsWith (s pre : String) : Bool :=
  decide (s.data.take pre.data.length = pre.data)

def pyDropPrefix (s pre : String) : String :=
  ⟨s.data.drop pre.data.length⟩

theorem string_data_append (a b : String) : (a ++ b).data = a.data ++ b.data := by
  cases a; cases b; rfl

theorem string_data_inj {a b : String} (h : a.data = b.data) : a = b := by
  cases a; cases b; exact congrArg String.mk h

theorem pyStartsWith_append (pre rest : String) :
    pyStartsWith (pre ++ rest) pre = true := by
  simp [pyStartsWith, string_data_append, List.take_left]

theorem pyDropPrefix_append (pre rest : String) :
    pyDropPrefix (pre ++ rest) pre = rest := by
  apply string_data_inj
  simp [pyDropPrefix, string_data_append, List.drop_left]

theorem append_ne_empty_of_left {a : String} (b : String) (h : a.data ≠ []) :
    a ++ b ≠ "" := by
  intro hc
  apply h
  have : (a ++ b).data = ("" : String).data := by rw [hc]
  rw [string_data_append] at this
  simpa using List.append_eq_nil.mp (by simpa using this) |>.1

/-! ### Data model (`LocalFile`, `S3Destination`, `Summary`) -/

/-- One scanned local file: absolute path, POSIX relative path, size, mtime. -/
structure LocalFile where
  path : String
  rel_posix : String
  size : Int
  mtime : Int
deriving DecidableEq, Repr

/-- Destination bucket plus normalized key prefix (field `prefix` in the
source; renamed `pfx` because `prefix` is reserved in Lean). -/
structure S3Destination where
  bucket : String
  pfx : String
deriving DecidableEq, Repr

def S3Destination.key_for (d : S3Destination) (rel_posix : String) : String :=
  if d.pfx = "" then rel_posix else d.pfx ++ rel_posix

def S3Destination.uri_for_key (d : S3Destination) (key : String) : String :=
  "s3://" ++ d.bucket ++ "/" ++ key

/-- The string "s3://{bucket}/" which the dedup resolver strips from a
canonical URI to recover the canonical key. -/
def S3Destination.uriRoot (d : S3Destination) : String :=
  "s3://" ++ d.bucket ++ "/"

theorem uri_for_key_eq_root_append (d : S3Destination) (key : String) :
    d.uri_for_key key = d.uriRoot ++ key := by
  simp [S3Destination.uri_for_key, S3Destination.uriRoot, String.append_assoc]

/-- Run-scoped counters, mirroring the `Summary` dataclass. -/
structure Summary where
  scanned : Nat := 0
  uploaded : Nat := 0
  uploaded_bytes : Int := 0
  skipped : Nat := 0
  duplicates : Nat := 0
  errors : Nat := 0
  deleted : Nat := 0
deriving DecidableEq, Repr

/-! ### Remote metadata and the upload decision engine -/

/-- Custom metadata tags attached to a remote object (a Python `dict[str, str]`). -/
abbrev Metadata : Type := List (String × String)

/-- A sample file used to instantiate theorems at concrete inputs. -/
def sampleFile : LocalFile := { path := "/data/a.jpg", rel_posix := "a.jpg", size := 3, mtime := 100 }

/-- Fallback branch of `choose_upload_action`: remote carries no (truthy)
sha256 tag, so compare the size and mtime tags as strings. -/
def choose_fallback (metadata : Metadata) (file_obj : LocalFile) : Bool × String :=
  match alGet metadata "size", alGet metadata "mtime" with
  | some remote_size, some remote_mtime =>
    if toString file_obj.size = remote_size ∧ toString file_obj.mtime = remote_mtime then
      (false, "remote size+mtime match")
    else
      (true, "remote metadata mismatch")
  | _, _ => (true, "remote metadata mismatch")

/-- Embedding of `choose_upload_action`.  The `ValueError` raised when the
remote carries a sha256 but no local hash was supplied becomes `.error`. -/
def choose_upload_action (remote_exists : Bool) (remote_metadata : Option Metadata)
    (file_obj : LocalFile) (local_sha : Option String) : Except String (Bool × String) :=
  if !remote_exists then
    .ok (true, "remote missing")
  else
    let metadata := remote_metadata.getD []
    match alGet metadata "sha256" with
    | some remote_sha =>
      if remote_sha ≠ "" then
        match local_sha with
        | none => .error "local_sha required when remote sha256 is present"
        | some ls =>
          if remote_sha = ls then .ok (false, "remote sha256 match")
          else .ok (true, "remote sha256 mismatch")
      else
        .ok (choose_fallback metadata file_obj)
    | none => .ok (choose_fallback metadata file_obj)

/-- C8: with no remote object the decision is always upload, reason
"remote missing", whatever the metadata argument holds. -/
theorem choose_upload_action_remote_missing (remote_metadata : Option Metadata)
    (file_obj : LocalFile) (local_sha : Option String) :
    choose_upload_action false remote_metadata file_obj local_sha = .ok (true, "remote missing") := rfl

/-- C1 counterexample: when the remote object carries a content hash, the
reasons actually returned are "remote sha256 match" / "remote sha256
mismatch", not "remote hash match" / "remote hash mismatch" as claimed. -/
theorem choose_upload_action_reason_strings :
    choose_upload_action true (some [("sha256", "abc"), ("size", "3"), ("mtime", "100")])
        sampleFile (some "abc") = .ok (false, "remote sha256 match")
    ∧ choose_upload_action true (some [("sha256", "abc"), ("size", "3"), ("mtime", "100")])
        sampleFile (some "def") = .ok (true, "remote sha256 mismatch")
    ∧ "remote sha256 match" ≠ "remote hash match"
    ∧ "remote sha256 mismatch" ≠ "remote hash mismatch" := by
  refine ⟨rfl, rfl, by decide, by decide⟩

/-- C1 (amended): when the remote object exists, its metadata carries a
non-empty sha256 tag, and the local hash has been computed, the decision is
skip with reason "remote sha256 match" on hash equality and upload with
reason "remote sha256 mismatch" otherwise, irrespective of any size/mtime
tags also present. -/
theorem choose_upload_action_hash_rule (metadata : Metadata) (file_obj : LocalFile)
    (r s : String) (hmd : alGet metadata "sha256" = some r) (hr : r ≠ "") :
    choose_upload_action true (some metadata) file_obj (some s)
      = .ok (if r = s then (false, "remote sha256 match") else (true, "remote sha256 mismatch")) := by
  simp only [choose_upload_action, Option.getD_some, Bool.not_true, Bool.false_eq_true,
    if_false, hmd]
  rw [if_pos hr]
  by_cases h : r = s
  · rw [if_pos h, if_pos h]
  · rw [if_neg h, if_neg h]

/-- Concrete instantiation of the amended C1 theorem. -/
theorem choose_upload_action_hash_rule_witness :
    choose_upload_action true (some [("sha256", "aa"), ("size", "9"), ("mtime", "9")])
        sampleFile (some "aa")
      = .ok (if "aa" = "aa" then (false, "remote sha256 match") else (true, "remote sha256 mismatch")) :=
  choose_upload_action_hash_rule [("sha256", "aa"), ("size", "9"), ("mtime", "9")]
    sampleFile "aa" "aa" rfl (by decide)

/-! ### Content hash cache (`ShaCache`)

The cache is keyed by `str(file_path.resolve())`; the model identifies a
path with its resolved string form, so two calls with the same path hit
the same entry.  `set_sha`'s `if s3_uri:` test is Python truthiness: a
`None` or empty-string URI leaves the entry without a URI and does not
touch the hash index. -/

/-- One cache entry: {size, mtime, sha256, optional s3_uri}. -/
structure CacheEntry where
  size : Int
  mtime : Int
  sha256 : String
  s3_uri : Option String
deriving DecidableEq, Repr

structure ShaCache where
  entries : List (String × CacheEntry)
  hash_index : List (String × String)
deriving DecidableEq, Repr

def ShaCache.empty : ShaCache := ⟨[], []⟩

def ShaCache.get_sha (c : ShaCache) (file_path : String) (size mtime : Int) : Option String :=
  match alGet c.entries file_path with
  | none => none
  | some entry =>
    if entry.size ≠ size ∨ entry.mtime ≠ mtime then none
    else some entry.sha256

def ShaCache.set_sha (c : ShaCache) (file_path : String) (size mtime : Int)
    (sha256 : String) (s3_uri : Option String) : ShaCache :=
  match s3_uri with
  | some uri =>
    if uri = "" then
      { entries := alPut c.entries file_path ⟨size, mtime, sha256, none⟩,
        hash_index := c.hash_index }
    else
      { entries := alPut c.entries file_path ⟨size, mtime, sha256, some uri⟩,
        hash_index := alPut c.hash_index sha256 uri }
  | none =>
    { entries := alPut c.entries file_path ⟨size, mtime, sha256, none⟩,
      hash_index := c.hash_index }

def ShaCache.get_canonical_uri (c : ShaCache) (sha256 : String) : Option String :=
  alGet c.hash_index sha256

def ShaCache.set_canonical_uri (c : ShaCache) (sha256 : String) (s3_uri : Option String) : ShaCache :=
  match s3_uri with
  | some uri =>
    if uri = "" then { c with hash_index := alErase c.hash_index sha256 }
    else { c with hash_index := alPut c.hash_index sha256 uri }
  | none => { c with hash_index := alErase c.hash_index sha256 }

/-- C4: `set_sha` followed by `get_sha` with the same path, size and mtime
returns the stored hash; querying the same path with a different size or a
different mtime returns `none` (a cache miss, never an error). -/
theorem shaCache_roundtrip (c : ShaCache) (file_path : String) (size mtime : Int)
    (sha256 : String) (s3_uri : Option String) :
    ((c.set_sha file_path size mtime sha256 s3_uri).get_sha file_path size mtime = some sha256)
    ∧ (∀ size', size' ≠ size →
        (c.set_sha file_path size mtime sha256 s3_uri).get_sha file_path size' mtime = none)
    ∧ (∀ mtime', mtime' ≠ mtime →
        (c.set_sha file_path size mtime sha256 s3_uri).get_sha file_path size mtime' = none) := by
  refine ⟨?_, ?_, ?_⟩
  · cases s3_uri with
    | none => simp [ShaCache.set_sha, ShaCache.get_sha]
    | some uri =>
      by_cases h : uri = "" <;> simp [ShaCache.set_sha, ShaCache.get_sha, h]
  · intro size' hne
    cases s3_uri with
    | none => simp [ShaCache.set_sha, ShaCache.get_sha, Ne.symm hne]
    | some uri =>
      by_cases h : uri = "" <;>
        simp [ShaCache.set_sha, ShaCache.get_sha, h, Ne.symm hne]
  · intro mtime' hne
    cases s3_uri with
    | none => simp [ShaCache.set_sha, ShaCache.get_sha, Ne.symm hne]
    | some uri =>
      by_cases h : uri = "" <;>
        simp [ShaCache.set_sha, ShaCache.get_sha, h, Ne.symm hne]

/-- Concrete instantiation of the C4 theorem. -/
theorem shaCache_roundtrip_witness :
    ((ShaCache.empty.set_sha "/data/a.jpg" 3 100 "abc" none).get_sha "/data/a.jpg" 3 100 = some "abc")
    ∧ ((ShaCache.empty.set_sha "/data/a.jpg" 3 100 "abc" none).get_sha "/data/a.jpg" 4 100 = none)
    ∧ ((ShaCache.empty.set_sha "/data/a.jpg" 3 100 "abc" none).get_sha "/data/a.jpg" 3 101 = none) :=
  ⟨(shaCache_roundtrip ShaCache.empty "/data/a.jpg" 3 100 "abc" none).1,
   (shaCache_roundtrip ShaCache.empty "/data/a.jpg" 3 100 "abc" none).2.1 4 (by decide),
   (shaCache_roundtrip ShaCache.empty "/data/a.jpg" 3 100 "abc" none).2.2 101 (by decide)⟩

/-! ### Remote state prober (`head_object_metadata`) -/

/-- Failures the S3 client can raise during a head call: a botocore
`ClientError` carrying an optional error code, or any other exception
(network failure, etc.), which the prober's `except ClientError` clause
does not even catch. -/
inductive S3Error where
  | clientError (code : Option String)
  | otherFailure (msg : String)
deriving DecidableEq, Repr

def notFoundCodes : List String := ["404", "NoSuchKey", "NotFound"]

/-- True exactly for a `ClientError` whose code is one of the not-found codes. -/
def isNotFound : S3Error → Bool
  | .clientError (some code) => notFoundCodes.contains code
  | _ => false

/-- Embedding of `head_object_metadata`: the raw outcome of
`client.head_object` (custom metadata on success, an error otherwise) is
mapped to `(exists, metadata)`; only a not-found `ClientError` is coerced
to `(false, none)`, everything else re-raises (stays `.error`). -/
def head_object_metadata (resp : Except S3Error Metadata) :
    Except S3Error (Bool × Option Metadata) :=
  match resp with
  | .ok response => .ok (true, some response)
  | .error e => if isNotFound e then .ok (false, none) else .error e

/-- C3: the prober returns `(false, none)` exactly on a not-found
condition; any other failure propagates unchanged as an error and is
never coerced into an exists=false result. -/
theorem head_object_metadata_spec (resp : Except S3Error Metadata) :
    (head_object_metadata resp = .ok (false, none)
      ↔ ∃ e, resp = .error e ∧ isNotFound e = true)
    ∧ (∀ e, resp = .error e → isNotFound e = false → head_object_metadata resp = .error e)
    ∧ (∀ md, head_object_metadata resp ≠ .ok (false, some md)) := by
  refine ⟨?_, ?_, ?_⟩
  · constructor
    · intro h
      cases resp with
      | ok response => simp [head_object_metadata] at h
      | error e =>
        refine ⟨e, rfl, ?_⟩
        by_cases he : isNotFound e
        · exact he
        · simp [head_object_metadata, he] at h
    · rintro ⟨e, rfl, he⟩
      simp [head_object_metadata, he]
  · rintro e rfl he
    simp [head_object_metadata, he]
  · intro md h
    cases resp with
    | ok response => simp [head_object_metadata] at h
    | error e =>
      by_cases he : isNotFound e <;> simp [head_object_metadata, he] at h

/-- Concrete instantiation of the C3 theorem: a not-found code yields
`(false, none)`, a permission error propagates, a network failure
propagates. -/
theorem head_object_metadata_spec_witness :
    head_object_metadata (.error (.clientError (some "404"))) = .ok (false, none)
    ∧ head_object_metadata (.error (.clientError (some "403"))) = .error (.clientError (some "403"))
    ∧ head_object_metadata (.error (.otherFailure "timeout")) = .error (.otherFailure "timeout") :=
  ⟨(head_object_metadata_spec (.error (.clientError (some "404")))).1.mpr
     ⟨.clientError (some "404"), rfl, by decide⟩,
   (head_object_metadata_spec (.error (.clientError (some "403")))).2.1
     (.clientError (some "403")) rfl (by decide),
   (head_object_metadata_spec (.error (.otherFailure "timeout"))).2.1
     (.otherFailure "timeout") rfl (by decide)⟩

/-! ### Glob matching (embedding of `fnmatch.fnmatch` on POSIX)

`fnmatch` translates a pattern into a matcher: `*` matches any sequence,
`?` any single character, `[...]` a character class (`!` negates, a `]`
directly after `[`/`[!` is literal, `a-b` is a range, a `[` with no
closing `]` is a literal `[`).  On POSIX `os.path.normcase` is the
identity, so no case folding occurs. -/

/-- Split a class body at the first closing `]`; `none` when there is none. -/
def splitAtRB : List Char → Option (List Char × List Char)
  | [] => none
  | c :: t =>
    if c = ']' then some ([], t)
    else (splitAtRB t).map (fun p => (c :: p.1, p.2))

theorem splitAtRB_length : ∀ (l : List Char) (b r : List Char),
    splitAtRB l = some (b, r) → r.length < l.length := by
  intro l
  induction l with
  | nil => intro b r h; simp [splitAtRB] at h
  | cons c t ih =>
    intro b r h
    by_cases hc : c = ']'
    · simp only [splitAtRB, if_pos hc] at h
      cases h
      simp
    · simp only [splitAtRB, if_neg hc] at h
      cases hsp : splitAtRB t with
      | none => rw [hsp] at h; simp at h
      | some p =>
        rw [hsp] at h
        simp only [Option.map_some'] at h
        cases h
        have := ih p.1 p.2 hsp
        simp only [List.length_cons]
        omega

/-- Parse the body of a `[...]` class (the characters after `[`):
returns (class body, negated flag, remainder of the pattern). -/
def parseClass (ps : List Char) : Option (List Char × Bool × List Char) :=
  match ps with
  | '!' :: ']' :: t1 => (splitAtRB t1).map (fun p => (']' :: p.1, true, p.2))
  | '!' :: t2 => (splitAtRB t2).map (fun p => (p.1, true, p.2))
  | ']' :: t3 => (splitAtRB t3).map (fun p => (']' :: p.1, false, p.2))
  | t4 => (splitAtRB t4).map (fun p => (p.1, false, p.2))

theorem splitAtRB_map_length (t : List Char) (g : List Char → List Char) (n : Bool)
    (body : List Char) (neg : Bool) (rest : List Char)
    (h : (splitAtRB t).map (fun p => (g p.1, n, p.2)) = some (body, neg, rest)) :
    rest.length < t.length := by
  cases hsp : splitAtRB t with
  | none => rw [hsp] at h; simp at h
  | some p =>
    rw [hsp] at h
    simp only [Option.map_some'] at h
    cases h
    exact splitAtRB_length t p.1 p.2 hsp

theorem parseClass_rest_length : ∀ (ps body : List Char) (neg : Bool) (rest : List Char),
    parseClass ps = some (body, neg, rest) → rest.length < ps.length := by
  intro ps body neg rest h
  unfold parseClass at h
  split at h
  · rename_i t1
    have := splitAtRB_map_length t1 (fun x => ']' :: x) true body neg rest h
    simp only [List.length_cons]
    omega
  · rename_i t2 hne
    have := splitAtRB_map_length t2 (fun x => x) true body neg rest h
    simp only [List.length_cons]
    omega
  · rename_i t3
    have := splitAtRB_map_length t3 (fun x => ']' :: x) false body neg rest h
    simp only [List.length_cons]
    omega
  · exact splitAtRB_map_length ps (fun x => x) false body neg rest h

/-- Compiled form of a glob pattern. -/
inductive GlobTok where
  | star
  | anyChar
  | lit (c : Char)
  | cls (negated : Bool) (body : List Char)
deriving DecidableEq, Repr

def compilePat : List Char → List GlobTok
  | [] => []
  | '*' :: ps => .star :: compilePat ps
  | '?' :: ps => .anyChar :: compilePat ps
  | '[' :: ps =>
    match h : parseClass ps with
    | some (body, neg, rest) => .cls neg body :: compilePat rest
    | none => .lit '[' :: compilePat ps
  | c :: ps => .lit c :: compilePat ps
termination_by l => l.length
decreasing_by
  all_goals simp_wf
  have := parseClass_rest_length ps body neg rest h
  omega

/-- Character-class membership: `a-b` between two characters is a range,
otherwise characters are literals. -/
def inClass : List Char → Char → Bool
  | lo :: '-' :: hi :: rest, c => (decide (lo ≤ c) && decide (c ≤ hi)) || inClass rest c
  | x :: rest, c => (x = c) || inClass rest c
  | [], _ => false

/-- Match a compiled pattern against a string (as its character list). -/
def tokMatch : List GlobTok → List Char → Bool
  | [], [] => true
  | [], _ :: _ => false
  | .star :: ts, [] => tokMatch ts []
  | .star :: ts, c :: s => tokMatch ts (c :: s) || tokMatch (.star :: ts) s
  | .anyChar :: _, [] => false
  | .anyChar :: ts, _ :: s => tokMatch ts s
  | .lit _ :: _, [] => false
  | .lit c :: ts, d :: s => (c = d) && tokMatch ts s
  | .cls _ _ :: _, [] => false
  | .cls neg body :: ts, d :: s => (inClass body d != neg) && tokMatch ts s
termination_by ts s => (ts.length, s.length)

/-- Embedding of `fnmatch.fnmatch(name, pattern)` on a POSIX platform. -/
def fnmatch (name pattern : String) : Bool :=
  tokMatch (compilePat pattern.data) name.data

/-! ### Local tree scanner filter (`should_include`) -/

def DEFAULT_EXCLUDES : List String := [".DS_Store", "Thumbs.db"]

/-- Split a character list on `/`, keeping empty segments. -/
def splitOnSlash : List Char → List (List Char)
  | [] => [[]]
  | '/' :: t => [] :: splitOnSlash t
  | c :: t =>
    match splitOnSlash t with
    | [] => [[c]]
    | h :: r => (c :: h) :: r

/-- Embedding of `Path(rel_posix).name`: pathlib drops empty and `"."`
components and `name` is the last remaining component (or `""`). -/
def pathName (rel_posix : String) : String :=
  let parts := (splitOnSlash rel_posix.data).filter (fun part => part ≠ [] ∧ part ≠ ['.'])
  ⟨parts.getLast?.getD []⟩

/-- One include/exclude test: some pattern matches the relative path or
the bare filename. -/
def matchesAny (rel_posix name : String) (patterns : List String) : Bool :=
  patterns.any (fun pattern => fnmatch rel_posix pattern || fnmatch name pattern)

/-- Embedding of `should_include` (`include`/`exclude` are renamed
`incl`/`excl` because `include` is reserved in Lean). -/
def should_include (rel_posix : String) (incl excl : List String) (skip_junk : Bool) : Bool :=
  let name := pathName rel_posix
  if skip_junk && DEFAULT_EXCLUDES.contains name then
    !incl.isEmpty && matchesAny rel_posix name incl
  else if !incl.isEmpty && !matchesAny rel_posix name incl then
    false
  else if !excl.isEmpty && matchesAny rel_posix name excl then
    false
  else
    true

/-- A lone `*` pattern matches every string. -/
theorem tokMatch_star_only : ∀ (s : List Char), tokMatch [.star] s = true := by
  intro s
  induction s with
  | nil => simp [tokMatch]
  | cons c t ih => simp [tokMatch, ih]

theorem fnmatch_star (name : String) : fnmatch name "*" = true := by
  have h1 : "*".data = ['*'] := rfl
  have h2 : compilePat ['*'] = [.star] := by
    simp [compilePat]
  rw [fnmatch, h1, h2]
  exact tokMatch_star_only name.data

/-- C6 counterexample: for a default junk name that an include pattern
matches, the scanner includes the file even though an exclude pattern also
matches both forms, contradicting the claimed clause (c). -/
theorem should_include_junk_overrides_exclude :
    should_include ".DS_Store" ["*"] ["*"] true = true
    ∧ matchesAny ".DS_Store" (pathName ".DS_Store") ["*"] = true := by
  have hp : pathName ".DS_Store" = ".DS_Store" := rfl
  have hm : matchesAny ".DS_Store" ".DS_Store" ["*"] = true := by
    simp [matchesAny, fnmatch_star]
  constructor
  · simp [should_include, hp, DEFAULT_EXCLUDES, hm]
  · rw [hp]; exact hm

/-- C6 (amended): with junk skipping on, a default junk name is included
iff some include pattern matches the relative path or the bare filename
(exclude patterns are not consulted for junk names); any other file is
included iff (b) when include patterns are given at least one matches
either form and (c) no exclude pattern matches either form. -/
theorem should_include_characterization (rel_posix : String) (incl excl : List String) :
    should_include rel_posix incl excl true = true ↔
      ((DEFAULT_EXCLUDES.contains (pathName rel_posix) = true
          ∧ incl ≠ [] ∧ matchesAny rel_posix (pathName rel_posix) incl = true)
        ∨ (DEFAULT_EXCLUDES.contains (pathName rel_posix) = false
          ∧ (incl = [] ∨ matchesAny rel_posix (pathName rel_posix) incl = true)
          ∧ matchesAny rel_posix (pathName rel_posix) excl = false)) := by
  simp only [should_include]
  rcases hj : DEFAULT_EXCLUDES.contains (pathName rel_posix) <;>
    rcases hinc : matchesAny rel_posix (pathName rel_posix) incl <;>
    rcases hexc : matchesAny rel_posix (pathName rel_posix) excl <;>
    rcases incl with _ | ⟨a, l⟩ <;>
    rcases excl with _ | ⟨b, m⟩ <;>
    simp_all [matchesAny]

/-! ### Deletion sweep (`maybe_delete_remote`)

The paginated `list_objects_v2` loop is modelled by a list of pages, each
a list of optional keys (an item with no `Key`, or an empty key, is
skipped by the `if not key` truthiness test).  `answers` gives the
operator's reply to each per-key prompt; `delete_ok key = false` models a
`ClientError` from `delete_object`.  The first component of the result is
the sequence of keys on which a delete action was taken (a dry-run log
line or an actual `delete_object` call, successful or not); the other two
are the `deleted` and `errors` counters. -/

def sweepItem (local_keys : List String) (dry_run require_confirmation : Bool)
    (answers : String → String) (delete_ok : String → Bool)
    (acc : List String × Nat × Nat) (item : Option String) : List String × Nat × Nat :=
  match item with
  | none => acc
  | some key =>
    if key = "" then acc
    else if key ∈ local_keys then acc
    else if dry_run then (acc.1 ++ [key], acc.2.1 + 1, acc.2.2)
    else if require_confirmation && !((answers key).trim.toLower ∈ ["y", "yes"] : Bool) then acc
    else if delete_ok key then (acc.1 ++ [key], acc.2.1 + 1, acc.2.2)
    else (acc.1 ++ [key], acc.2.1, acc.2.2 + 1)

def maybe_delete_remote (local_keys : List String) (dry_run require_confirmation : Bool)
    (answers : String → String) (delete_ok : String → Bool)
    (pages : List (List (Option String))) : List String × Nat × Nat :=
  pages.foldl
    (fun acc page =>
      page.foldl (sweepItem local_keys dry_run require_confirmation answers delete_ok) acc)
    ([], 0, 0)

theorem sweepItem_mem (local_keys : List String) (dry_run require_confirmation : Bool)
    (answers : String → String) (delete_ok : String → Bool)
    (acc : List String × Nat × Nat) (item : Option String) (k : String)
    (h : k ∈ (sweepItem local_keys dry_run require_confirmation answers delete_ok acc item).1) :
    k ∈ acc.1 ∨ k ∉ local_keys := by
  cases item with
  | none => exact .inl h
  | some key =>
    by_cases h0 : key = ""
    · simp only [sweepItem, if_pos h0] at h; exact .inl h
    · by_cases h1 : key ∈ local_keys
      · simp only [sweepItem, if_neg h0, if_pos h1] at h; exact .inl h
      · simp only [sweepItem, if_neg h0, if_neg h1] at h
        have hcase : k ∈ acc.1 ++ [key] ∨ k ∈ acc.1 := by
          split at h <;> try exact .inl h
          split at h <;> try exact .inr h
          split at h <;> exact .inl h
        rcases hcase with hk | hk
        · rcases List.mem_append.mp hk with hk' | hk'
          · exact .inl hk'
          · simp at hk'; subst hk'; exact .inr h1
        · exact .inl hk

theorem sweep_page_mem (local_keys : List String) (dry_run require_confirmation : Bool)
    (answers : String → String) (delete_ok : String → Bool) (k : String) :
    ∀ (page : List (Option String)) (acc : List String × Nat × Nat),
    k ∈ (page.foldl (sweepItem local_keys dry_run require_confirmation answers delete_ok) acc).1 →
    k ∈ acc.1 ∨ k ∉ local_keys := by
  intro page
  induction page with
  | nil => intro acc h; exact .inl h
  | cons item rest ih =>
    intro acc h
    rcases ih _ h with h' | h'
    · exact sweepItem_mem local_keys dry_run require_confirmation answers delete_ok acc item k h'
    · exact .inr h'

/-- C2: a key on which the deletion sweep takes any delete action is never
one of the current run's locally-derived keys, for every paginated remote
listing and every local key set. -/
theorem maybe_delete_remote_safe (local_keys : List String)
    (dry_run require_confirmation : Bool) (answers : String → String)
    (delete_ok : String → Bool) (pages : List (List (Option String))) (k : String)
    (h : k ∈ (maybe_delete_remote local_keys dry_run require_confirmation
                answers delete_ok pages).1) :
    k ∉ local_keys := by
  rw [maybe_delete_remote] at h
  have main : ∀ (pgs : List (List (Option String))) (acc : List String × Nat × Nat),
      (∀ k', k' ∈ acc.1 → k' ∉ local_keys) →
      k ∈ (pgs.foldl (fun a page =>
            page.foldl (sweepItem local_keys dry_run require_confirmation answers delete_ok) a)
          acc).1 →
      k ∉ local_keys := by
    intro pgs
    induction pgs with
    | nil => intro acc hacc h'; exact hacc k h'
    | cons page rest ih =>
      intro acc hacc h'
      refine ih _ ?_ h'
      intro k' hk'
      rcases sweep_page_mem local_keys dry_run require_confirmation answers delete_ok
          k' page acc hk' with h'' | h''
      · exact hacc k' h''
      · exact h''
  exact main pages ([], 0, 0) (by intro k' hk'; simp at hk') h

/-- Concrete instantiation of the C2 theorem: with local keys {"photos/a"}
and a remote listing {"photos/a", "photos/b"}, the only delete action is on
"photos/b", which is not a local key. -/
theorem maybe_delete_remote_safe_witness :
    "photos/b" ∉ ["photos/a"] :=
  maybe_delete_remote_safe ["photos/a"] true false (fun _ => "") (fun _ => true)
    [[some "photos/a", some "photos/b"]] "photos/b"
    (by simp [maybe_delete_remote, sweepItem])

/-! ### Per-file pipeline (`process_file`) and the run driver (`run_sync`)

The S3 bucket is a map key → metadata; `head_store` is the behaviour of
`client.head_object` against it (a missing key raises a 404
`ClientError`).  The filesystem enters through `hashOf` (the sha256 hex
digest of the bytes at a path: byte-identical files have equal digests).
`upload_raises key = true` models `client.upload_file` raising for that
key; the raised exception is caught by the per-file handler and counted.
The thread pool runs with the sequential (single-worker) schedule. -/

def head_store (remote : List (String × Metadata)) (key : String) : Except S3Error Metadata :=
  match alGet remote key with
  | some md => .ok md
  | none => .error (.clientError (some "404"))

/-- Embedding of `key_exists` (`head_store` never produces a propagating
error, so the `.error` arm is unreachable). -/
def key_exists (remote : List (String × Metadata)) (key : String) : Bool :=
  match head_object_metadata (head_store remote key) with
  | .ok (ex, _) => ex
  | .error _ => false

/-- Embedding of `get_local_sha`: consult the cache (an empty cached
string is falsy and triggers recomputation), else hash and record. -/
def get_local_sha (hashOf : String → String) (cache : ShaCache) (file_obj : LocalFile) :
    String × ShaCache :=
  match cache.get_sha file_obj.path file_obj.size file_obj.mtime with
  | some cached =>
    if cached ≠ "" then (cached, cache)
    else
      let sha := hashOf file_obj.path
      (sha, cache.set_sha file_obj.path file_obj.size file_obj.mtime sha none)
  | none =>
    let sha := hashOf file_obj.path
    (sha, cache.set_sha file_obj.path file_obj.size file_obj.mtime sha none)

/-- The truthy value of `remote_metadata and remote_metadata.get("sha256")`:
`some sha` iff the metadata dict is non-empty and holds a non-empty sha256. -/
def metaSha : Option Metadata → Option String
  | none => none
  | some md =>
    if md.isEmpty then none
    else
      match alGet md "sha256" with
      | some s => if s = "" then none else some s
      | none => none

/-- Metadata tags attached by `upload_one`. -/
def uploadMeta (file_obj : LocalFile) (sha256 : String) : Metadata :=
  [("sha256", sha256), ("size", toString file_obj.size), ("mtime", toString file_obj.mtime)]

/-- The command-line flags consumed by the run model. -/
structure SyncArgs where
  dry_run : Bool
  delete : Bool
  yes : Bool
  content_dedupe : Bool
deriving DecidableEq, Repr

/-- The external world: terminal, file contents (through their hashes),
prompt replies and client failure behaviour. -/
structure SyncEnv where
  stdin_isatty : Bool
  hashOf : String → String
  answers : String → String
  delete_ok : String → Bool
  upload_raises : String → Bool

/-- Mutable run state: the bucket, the cache, the run-scoped hash→URI
map, the counters, and the keys physically uploaded so far. -/
structure SyncState where
  remote : List (String × Metadata)
  cache : ShaCache
  run_hash_map : List (String × String)
  summary : Summary
  puts : List String

/-- Dedup resolver (lines 436-450): on a confirmed duplicate returns the
final state (`inl`); otherwise returns the computed sha and cache
(`inr`), the stale hash-index entry scrubbed on disproof. -/
def dedupResolve (env : SyncEnv) (destination : S3Destination) (st : SyncState)
    (file_obj : LocalFile) : SyncState ⊕ (String × ShaCache) :=
  let r := get_local_sha env.hashOf st.cache file_obj
  let sha := r.1
  let cache2 := r.2
  let run_canonical := alGet st.run_hash_map sha
  let canonical : Option String :=
    match run_canonical with
    | some u => if u = "" then cache2.get_canonical_uri sha else some u
    | none => cache2.get_canonical_uri sha
  match canonical with
  | some can =>
    if can ≠ "" && pyStartsWith can destination.uriRoot then
      let canonical_key := pyDropPrefix can destination.uriRoot
      if key_exists st.remote canonical_key then
        .inl { st with
          cache := cache2.set_sha file_obj.path file_obj.size file_obj.mtime sha (some can),
          summary := { st.summary with duplicates := st.summary.duplicates + 1 } }
      else
        .inr (sha, cache2.set_canonical_uri sha none)
    else .inr (sha, cache2)
  | none => .inr (sha, cache2)

/-- Embedding of the `process_file` closure of `run_sync`. -/
def process_file (args : SyncArgs) (env : SyncEnv) (destination : S3Destination)
    (st : SyncState) (file_obj : LocalFile) : SyncState :=
  let key := destination.key_for file_obj.rel_posix
  let s3_uri := destination.uri_for_key key
  match head_object_metadata (head_store st.remote key) with
  | .error _ =>
    { st with summary := { st.summary with errors := st.summary.errors + 1 } }
  | .ok (ex, remote_metadata) =>
    let pre :=
      if ex && (metaSha remote_metadata).isSome then
        let r := get_local_sha env.hashOf st.cache file_obj
        (some r.1, r.2)
      else ((none : Option String), st.cache)
    let local_sha_for_decision := pre.1
    let cache1 := pre.2
    match choose_upload_action ex remote_metadata file_obj local_sha_for_decision with
    | .error _ =>
      { st with cache := cache1,
                summary := { st.summary with errors := st.summary.errors + 1 } }
    | .ok (needs_upload, _reason) =>
      if !needs_upload then
        match metaSha remote_metadata with
        | some sha =>
          { st with
            cache := cache1.set_sha file_obj.path file_obj.size file_obj.mtime sha (some s3_uri),
            run_hash_map := alPut st.run_hash_map sha s3_uri,
            summary := { st.summary with skipped := st.summary.skipped + 1 } }
        | none =>
          { st with cache := cache1,
                    summary := { st.summary with skipped := st.summary.skipped + 1 } }
      else
        let dedupStep : SyncState ⊕ (Option String × ShaCache) :=
          if args.content_dedupe && !ex then
            match dedupResolve env destination { st with cache := cache1 } file_obj with
            | .inl final => .inl final
            | .inr (sha, cache2) => .inr (some sha, cache2)
          else .inr (local_sha_for_decision, cache1)
        match dedupStep with
        | .inl final => final
        | .inr (lsd, cache3) =>
          let up :=
            match lsd with
            | some s => if s ≠ "" then (s, cache3) else get_local_sha env.hashOf cache3 file_obj
            | none => get_local_sha env.hashOf cache3 file_obj
          let sha_to_upload := up.1
          let cache4 := up.2
          if args.dry_run then
            { st with
              cache := cache4.set_sha file_obj.path file_obj.size file_obj.mtime
                         sha_to_upload (some s3_uri),
              run_hash_map := alPut st.run_hash_map sha_to_upload s3_uri,
              summary := { st.summary with
                uploaded := st.summary.uploaded + 1,
                uploaded_bytes := st.summary.uploaded_bytes + file_obj.size } }
          else if env.upload_raises key then
            { st with cache := cache4,
                      summary := { st.summary with errors := st.summary.errors + 1 } }
          else
            { st with
              remote := alPut st.remote key (uploadMeta file_obj sha_to_upload),
              cache := cache4.set_sha file_obj.path file_obj.size file_obj.mtime
                         sha_to_upload (some s3_uri),
              run_hash_map := alPut st.run_hash_map sha_to_upload s3_uri,
              summary := { st.summary with
                uploaded := st.summary.uploaded + 1,
                uploaded_bytes := st.summary.uploaded_bytes + file_obj.size },
              puts := st.puts ++ [key] }

/-- What a run observably did besides its final state: the files the
scanner yielded and the keys on which the sweep took a delete action. -/
structure RunTrace where
  scanned : List LocalFile
  deletes : List String
deriving Repr

/-- Exit code of a completed `run_sync` (line 508). -/
def run_exit (errors : Nat) : Nat := if errors ≠ 0 then 1 else 0

/-- Embedding of `run_sync`: the delete-mode guard, then the scan, the
per-file pipeline over every scanned file, and the optional deletion
sweep over a listing of the bucket under the destination prefix. -/
def run_sync (args : SyncArgs) (env : SyncEnv) (destination : S3Destination)
    (files : List LocalFile) (remote0 : List (String × Metadata)) (cache0 : ShaCache) :
    Nat × SyncState × RunTrace :=
  if args.delete && !args.yes && !args.dry_run && !env.stdin_isatty then
    (2, ⟨remote0, cache0, [], {}, []⟩, ⟨[], []⟩)
  else
    let local_keys := files.map (fun f => destination.key_for f.rel_posix)
    let st0 : SyncState := ⟨remote0, cache0, [], { scanned := files.length }, []⟩
    let st1 := files.foldl (process_file args env destination) st0
    if args.delete then
      let require_confirmation := !args.yes && !args.dry_run
      let pages := [(st1.remote.filter (fun p => pyStartsWith p.1 destination.pfx)).map
                      (fun p => (some p.1 : Option String))]
      let r := maybe_delete_remote local_keys args.dry_run require_confirmation
                 env.answers env.delete_ok pages
      let st2 := { st1 with summary := { st1.summary with
                     deleted := st1.summary.deleted + r.2.1,
                     errors := st1.summary.errors + r.2.2 } }
      (run_exit st2.summary.errors, st2, ⟨files, r.1⟩)
    else
      (run_exit st1.summary.errors, st1, ⟨files, []⟩)

/-- How `main` finished: `run_sync` returned a code, a `ValueError`
(configuration/usage error) was caught, or the user interrupted. -/
inductive MainOutcome where
  | ran (code : Nat)
  | valueError (msg : String)
  | interrupted
deriving DecidableEq, Repr

/-- Embedding of `main`'s exception dispatch (lines 511-520). -/
def main_exit : MainOutcome → Nat
  | .ran code => code
  | .valueError _ => 2
  | .interrupted => 130

/-- C7: with the delete flag set but neither the non-interactive
confirmation flag, nor dry-run mode, nor an interactive stdin, the run
exits with the non-zero usage code 2 and no file is scanned, uploaded or
deleted. -/
theorem run_sync_delete_guard (args : SyncArgs) (env : SyncEnv) (destination : S3Destination)
    (files : List LocalFile) (remote0 : List (String × Metadata)) (cache0 : ShaCache)
    (hd : args.delete = true) (hy : args.yes = false) (hdr : args.dry_run = false)
    (ht : env.stdin_isatty = false) :
    (run_sync args env destination files remote0 cache0).1 = 2
    ∧ (run_sync args env destination files remote0 cache0).2.2.scanned = []
    ∧ (run_sync args env destination files remote0 cache0).2.1.puts = []
    ∧ (run_sync args env destination files remote0 cache0).2.2.deletes = []
    ∧ (2 : Nat) ≠ 0 := by
  refine ⟨?_, ?_, ?_, ?_, by decide⟩ <;> simp [run_sync, hd, hy, hdr, ht]

/-- Concrete instantiation of the C7 theorem. -/
theorem run_sync_delete_guard_witness :
    (run_sync ⟨false, true, false, false⟩
        ⟨false, fun _ => "h", fun _ => "", fun _ => true, fun _ => false⟩
        ⟨"bkt", ""⟩ [sampleFile] [] ShaCache.empty).1 = 2 :=
  (run_sync_delete_guard ⟨false, true, false, false⟩
    ⟨false, fun _ => "h", fun _ => "", fun _ => true, fun _ => false⟩
    ⟨"bkt", ""⟩ [sampleFile] [] ShaCache.empty rfl rfl rfl rfl).1

/-- C9: exit status taxonomy — 0 for a clean completed run, 1 when any
per-file or sweep error was counted, 2 for configuration/usage errors
(`ValueError`), 130 for user interruption; the non-zero codes are
pairwise distinct and all differ from 0. -/
theorem exit_code_taxonomy :
    main_exit (.ran (run_exit 0)) = 0
    ∧ (∀ e, e ≠ 0 → main_exit (.ran (run_exit e)) = 1)
    ∧ (∀ msg, main_exit (.valueError msg) = 2)
    ∧ main_exit .interrupted = 130
    ∧ ((1 : Nat) ≠ 0 ∧ (2 : Nat) ≠ 0 ∧ (130 : Nat) ≠ 0
        ∧ (1 : Nat) ≠ 2 ∧ (1 : Nat) ≠ 130 ∧ (2 : Nat) ≠ 130) := by
  refine ⟨rfl, ?_, fun _ => rfl, rfl, by decide⟩
  intro e he
  simp [main_exit, run_exit, he]

/-- Concrete instantiation of the C9 theorem: one failed file gives exit 1. -/
theorem exit_code_taxonomy_witness : main_exit (.ran (run_exit 3)) = 1 :=
  exit_code_taxonomy.2.1 3 (by decide)

/-! ### Evaluation lemmas for the per-file pipeline -/

theorem head_probe_miss (remote : List (String × Metadata)) (key : String)
    (h : alGet remote key = none) :
    head_object_metadata (head_store remote key) = .ok (false, none) := by
  unfold head_store
  rw [h]
  rfl

theorem head_probe_hit (remote : List (String × Metadata)) (key : String) (md : Metadata)
    (h : alGet remote key = some md) :
    head_object_metadata (head_store remote key) = .ok (true, some md) := by
  unfold head_store
  rw [h]
  rfl

theorem key_exists_hit (remote : List (String × Metadata)) (key : String) (md : Metadata)
    (h : alGet remote key = some md) : key_exists remote key = true := by
  unfold key_exists
  rw [head_probe_hit remote key md h]

theorem get_local_sha_miss (hashOf : String → String) (cache : ShaCache) (file_obj : LocalFile)
    (h : cache.get_sha file_obj.path file_obj.size file_obj.mtime = none) :
    get_local_sha hashOf cache file_obj
      = (hashOf file_obj.path,
         cache.set_sha file_obj.path file_obj.size file_obj.mtime (hashOf file_obj.path) none) := by
  unfold get_local_sha
  rw [h]

theorem uriRoot_data_ne_nil (d : S3Destination) : d.uriRoot.data ≠ [] := by
  intro h
  have h2 := congrArg List.length h
  rw [S3Destination.uriRoot, string_data_append, string_data_append] at h2
  simp at h2

theorem uri_for_key_ne_empty (d : S3Destination) (key : String) : d.uri_for_key key ≠ "" := by
  rw [uri_for_key_eq_root_append]
  exact append_ne_empty_of_left key (uriRoot_data_ne_nil d)

/-- Evaluation of `process_file` on a fresh upload with dedup disabled:
remote missing at the key, cache miss for the file, upload succeeds. -/
theorem process_file_upload_nodedup (dry : Bool) (env : SyncEnv) (destination : S3Destination)
    (st : SyncState) (file_obj : LocalFile)
    (hmiss : alGet st.remote (destination.key_for file_obj.rel_posix) = none)
    (hc : st.cache.get_sha file_obj.path file_obj.size file_obj.mtime = none)
    (hraise : env.upload_raises (destination.key_for file_obj.rel_posix) = false) :
    process_file ⟨dry, false, false, false⟩ env destination st file_obj
      = { st with
          remote := if dry then st.remote
            else alPut st.remote (destination.key_for file_obj.rel_posix)
                   (uploadMeta file_obj (env.hashOf file_obj.path)),
          cache := (st.cache.set_sha file_obj.path file_obj.size file_obj.mtime
                      (env.hashOf file_obj.path) none).set_sha
                     file_obj.path file_obj.size file_obj.mtime (env.hashOf file_obj.path)
                     (some (destination.uri_for_key (destination.key_for file_obj.rel_posix))),
          run_hash_map := alPut st.run_hash_map (env.hashOf file_obj.path)
                            (destination.uri_for_key (destination.key_for file_obj.rel_posix)),
          summary := { st.summary with
            uploaded := st.summary.uploaded + 1,
            uploaded_bytes := st.summary.uploaded_bytes + file_obj.size },
          puts := if dry then st.puts
            else st.puts ++ [destination.key_for file_obj.rel_posix] } := by
  rw [process_file]
  rw [head_probe_miss st.remote (destination.key_for file_obj.rel_posix) hmiss]
  simp only [Bool.false_and, Bool.and_false, if_false, Bool.not_false, Bool.not_true,
    choose_upload_action, if_true, Bool.false_eq_true]
  rw [get_local_sha_miss env.hashOf st.cache file_obj hc]
  cases dry with
  | true => simp
  | false => simp [hraise]

theorem key_for_inj (d : S3Destination) {r1 r2 : String} (h : r1 ≠ r2) :
    d.key_for r1 ≠ d.key_for r2 := by
  unfold S3Destination.key_for
  by_cases hp : d.pfx = ""
  · simpa [hp] using h
  · simp only [if_neg hp]
    intro hc
    apply h
    have h2 := congrArg String.data hc
    rw [string_data_append, string_data_append] at h2
    exact string_data_inj (List.append_cancel_left h2)

theorem get_sha_set_sha_other (c : ShaCache) (p q : String) (sz mt sz' mt' : Int)
    (sha : String) (uri : Option String) (h : p ≠ q) :
    (c.set_sha p sz mt sha uri).get_sha q sz' mt' = c.get_sha q sz' mt' := by
  cases uri with
  | none => simp [ShaCache.set_sha, ShaCache.get_sha, alGet_alPut_ne _ p q _ h]
  | some u =>
    by_cases hu : u = "" <;>
      simp [ShaCache.set_sha, ShaCache.get_sha, hu, alGet_alPut_ne _ p q _ h]

/-- C10: in dry-run mode a file that needs upload triggers no put call
(remote store and physical-upload list unchanged), yet the uploaded /
uploaded_bytes counters advance and the cache entry and hash-index entry
are written exactly as the completed (non-dry-run) upload would write
them. -/
theorem dry_run_upload_effects (env : SyncEnv) (destination : S3Destination)
    (st : SyncState) (file_obj : LocalFile)
    (hmiss : alGet st.remote (destination.key_for file_obj.rel_posix) = none)
    (hc : st.cache.get_sha file_obj.path file_obj.size file_obj.mtime = none)
    (hraise : env.upload_raises (destination.key_for file_obj.rel_posix) = false) :
    (process_file ⟨true, false, false, false⟩ env destination st file_obj).remote = st.remote
    ∧ (process_file ⟨true, false, false, false⟩ env destination st file_obj).puts = st.puts
    ∧ (process_file ⟨true, false, false, false⟩ env destination st file_obj).summary.uploaded
        = st.summary.uploaded + 1
    ∧ (process_file ⟨true, false, false, false⟩ env destination st file_obj).summary.uploaded_bytes
        = st.summary.uploaded_bytes + file_obj.size
    ∧ alGet (process_file ⟨true, false, false, false⟩ env destination st file_obj).cache.entries
          file_obj.path
        = some ⟨file_obj.size, file_obj.mtime, env.hashOf file_obj.path,
                some (destination.uri_for_key (destination.key_for file_obj.rel_posix))⟩
    ∧ alGet (process_file ⟨true, false, false, false⟩ env destination st file_obj).cache.hash_index
          (env.hashOf file_obj.path)
        = some (destination.uri_for_key (destination.key_for file_obj.rel_posix))
    ∧ (process_file ⟨true, false, false, false⟩ env destination st file_obj).cache
        = (process_file ⟨false, false, false, false⟩ env destination st file_obj).cache
    ∧ (process_file ⟨true, false, false, false⟩ env destination st file_obj).run_hash_map
        = (process_file ⟨false, false, false, false⟩ env destination st file_obj).run_hash_map := by
  have huri := uri_for_key_ne_empty destination (destination.key_for file_obj.rel_posix)
  rw [process_file_upload_nodedup true env destination st file_obj hmiss hc hraise,
      process_file_upload_nodedup false env destination st file_obj hmiss hc hraise]
  refine ⟨by simp, by simp, rfl, rfl, ?_, ?_, rfl, rfl⟩
  · simp [ShaCache.set_sha, huri]
  · simp [ShaCache.set_sha, huri]

/-- Concrete instantiation of the C10 theorem. -/
theorem dry_run_upload_effects_witness :
    (process_file ⟨true, false, false, false⟩
        ⟨true, fun _ => "h", fun _ => "", fun _ => true, fun _ => false⟩
        ⟨"bkt", ""⟩ ⟨[], ShaCache.empty, [], {}, []⟩ sampleFile).remote = []
    ∧ (process_file ⟨true, false, false, false⟩
        ⟨true, fun _ => "h", fun _ => "", fun _ => true, fun _ => false⟩
        ⟨"bkt", ""⟩ ⟨[], ShaCache.empty, [], {}, []⟩ sampleFile).summary.uploaded = 0 + 1 :=
  ⟨(dry_run_upload_effects
      ⟨true, fun _ => "h", fun _ => "", fun _ => true, fun _ => false⟩ ⟨"bkt", ""⟩
      ⟨[], ShaCache.empty, [], {}, []⟩ sampleFile rfl rfl rfl).1,
   (dry_run_upload_effects
      ⟨true, fun _ => "h", fun _ => "", fun _ => true, fun _ => false⟩ ⟨"bkt", ""⟩
      ⟨[], ShaCache.empty, [], {}, []⟩ sampleFile rfl rfl rfl).2.2.1⟩

/-- Evaluation of `process_file` with dedup enabled on a fresh upload:
remote missing at the key, cache miss, no run-scoped or persisted
canonical URI for the hash — the file is uploaded exactly as without
dedup. -/
theorem process_file_upload_dedup_fresh (env : SyncEnv) (destination : S3Destination)
    (st : SyncState) (file_obj : LocalFile)
    (hmiss : alGet st.remote (destination.key_for file_obj.rel_posix) = none)
    (hc : st.cache.get_sha file_obj.path file_obj.size file_obj.mtime = none)
    (hrun : alGet st.run_hash_map (env.hashOf file_obj.path) = none)
    (hidx : alGet st.cache.hash_index (env.hashOf file_obj.path) = none)
    (hsha : env.hashOf file_obj.path ≠ "")
    (hraise : env.upload_raises (destination.key_for file_obj.rel_posix) = false) :
    process_file ⟨false, false, false, true⟩ env destination st file_obj
      = { st with
          remote := alPut st.remote (destination.key_for file_obj.rel_posix)
                      (uploadMeta file_obj (env.hashOf file_obj.path)),
          cache := (st.cache.set_sha file_obj.path file_obj.size file_obj.mtime
                      (env.hashOf file_obj.path) none).set_sha
                     file_obj.path file_obj.size file_obj.mtime (env.hashOf file_obj.path)
                     (some (destination.uri_for_key (destination.key_for file_obj.rel_posix))),
          run_hash_map := alPut st.run_hash_map (env.hashOf file_obj.path)
                            (destination.uri_for_key (destination.key_for file_obj.rel_posix)),
          summary := { st.summary with
            uploaded := st.summary.uploaded + 1,
            uploaded_bytes := st.summary.uploaded_bytes + file_obj.size },
          puts := st.puts ++ [destination.key_for file_obj.rel_posix] } := by
  rw [process_file]
  rw [head_probe_miss st.remote (destination.key_for file_obj.rel_posix) hmiss]
  simp only [Bool.false_and, Bool.and_false, if_false, Bool.not_false, Bool.not_true,
    choose_upload_action, if_true, Bool.false_eq_true, Bool.and_true]
  rw [dedupResolve]
  rw [get_local_sha_miss env.hashOf st.cache file_obj hc]
  simp only [hrun]
  have hidx2 : (st.cache.set_sha file_obj.path file_obj.size file_obj.mtime
      (env.hashOf file_obj.path) none).get_canonical_uri (env.hashOf file_obj.path) = none := by
    simp [ShaCache.set_sha, ShaCache.get_canonical_uri, hidx]
  simp only [hidx2]
  simp [hsha, hraise]

/-- Evaluation of `process_file` with dedup enabled when the run-scoped
hash map already holds a canonical URI under the destination bucket whose
key is live in the bucket: the file is recorded as a duplicate. -/
theorem process_file_duplicate (env : SyncEnv) (destination : S3Destination)
    (st : SyncState) (file_obj : LocalFile) (kc : String) (mdc : Metadata)
    (hmiss : alGet st.remote (destination.key_for file_obj.rel_posix) = none)
    (hc : st.cache.get_sha file_obj.path file_obj.size file_obj.mtime = none)
    (hrun : alGet st.run_hash_map (env.hashOf file_obj.path)
              = some (destination.uri_for_key kc))
    (hkc : alGet st.remote kc = some mdc) :
    process_file ⟨false, false, false, true⟩ env destination st file_obj
      = { st with
          cache := (st.cache.set_sha file_obj.path file_obj.size file_obj.mtime
                      (env.hashOf file_obj.path) none).set_sha
                     file_obj.path file_obj.size file_obj.mtime (env.hashOf file_obj.path)
                     (some (destination.uri_for_key kc)),
          summary := { st.summary with duplicates := st.summary.duplicates + 1 } } := by
  have huri := uri_for_key_ne_empty destination kc
  have hstart : pyStartsWith (destination.uri_for_key kc) destination.uriRoot = true := by
    rw [uri_for_key_eq_root_append]
    exact pyStartsWith_append destination.uriRoot kc
  have hdropp : pyDropPrefix (destination.uri_for_key kc) destination.uriRoot = kc := by
    rw [uri_for_key_eq_root_append]
    exact pyDropPrefix_append destination.uriRoot kc
  rw [process_file]
  rw [head_probe_miss st.remote (destination.key_for file_obj.rel_posix) hmiss]
  simp only [Bool.false_and, Bool.and_false, if_false, Bool.not_false, Bool.not_true,
    choose_upload_action, if_true, Bool.false_eq_true, Bool.and_true]
  rw [dedupResolve]
  rw [get_local_sha_miss env.hashOf st.cache file_obj hc]
  simp only [hrun]
  simp [huri, hstart, hdropp, key_exists_hit st.remote kc mdc hkc]

/-- C5: two distinct local paths with byte-identical content (equal
hashes), synced in one run against a destination initially holding
neither key, starting from an empty cache: with dedup mode on, exactly
one physical upload happens (at the first file's key), the second file is
counted as a duplicate (not an upload), its cache entry points at the
canonical URI, and its own destination key is never written; with dedup
mode off, both files are uploaded independently. -/
theorem dedup_two_identical_files (env : SyncEnv) (destination : S3Destination)
    (a b : LocalFile) (remote0 : List (String × Metadata))
    (hab : env.hashOf a.path = env.hashOf b.path)
    (hsha : env.hashOf a.path ≠ "")
    (hpath : a.path ≠ b.path)
    (hrel : a.rel_posix ≠ b.rel_posix)
    (hra : alGet remote0 (destination.key_for a.rel_posix) = none)
    (hrb : alGet remote0 (destination.key_for b.rel_posix) = none)
    (hua : env.upload_raises (destination.key_for a.rel_posix) = false)
    (hub : env.upload_raises (destination.key_for b.rel_posix) = false) :
    (run_sync ⟨false, false, false, true⟩ env destination [a, b] remote0 ShaCache.empty).2.1.puts
      = [destination.key_for a.rel_posix]
    ∧ (run_sync ⟨false, false, false, true⟩ env destination [a, b] remote0
        ShaCache.empty).2.1.summary.uploaded = 1
    ∧ (run_sync ⟨false, false, false, true⟩ env destination [a, b] remote0
        ShaCache.empty).2.1.summary.duplicates = 1
    ∧ alGet (run_sync ⟨false, false, false, true⟩ env destination [a, b] remote0
          ShaCache.empty).2.1.cache.entries b.path
        = some ⟨b.size, b.mtime, env.hashOf a.path,
                some (destination.uri_for_key (destination.key_for a.rel_posix))⟩
    ∧ alGet (run_sync ⟨false, false, false, true⟩ env destination [a, b] remote0
          ShaCache.empty).2.1.remote (destination.key_for b.rel_posix) = none
    ∧ (run_sync ⟨false, false, false, false⟩ env destination [a, b] remote0
        ShaCache.empty).2.1.puts
      = [destination.key_for a.rel_posix, destination.key_for b.rel_posix]
    ∧ (run_sync ⟨false, false, false, false⟩ env destination [a, b] remote0
        ShaCache.empty).2.1.summary.uploaded = 2
    ∧ (run_sync ⟨false, false, false, false⟩ env destination [a, b] remote0
        ShaCache.empty).2.1.summary.duplicates = 0 := by
  have hkey : destination.key_for a.rel_posix ≠ destination.key_for b.rel_posix :=
    key_for_inj destination hrel
  have huria := uri_for_key_ne_empty destination (destination.key_for a.rel_posix)
  -- both runs reduce to two sequential process_file steps from the initial state
  have hded : (run_sync ⟨false, false, false, true⟩ env destination [a, b] remote0
        ShaCache.empty).2.1
      = process_file ⟨false, false, false, true⟩ env destination
          (process_file ⟨false, false, false, true⟩ env destination
            ⟨remote0, ShaCache.empty, [], ⟨2, 0, 0, 0, 0, 0, 0⟩, []⟩ a) b := by
    simp [run_sync, List.foldl_cons, List.foldl_nil]
  have hplain : (run_sync ⟨false, false, false, false⟩ env destination [a, b] remote0
        ShaCache.empty).2.1
      = process_file ⟨false, false, false, false⟩ env destination
          (process_file ⟨false, false, false, false⟩ env destination
            ⟨remote0, ShaCache.empty, [], ⟨2, 0, 0, 0, 0, 0, 0⟩, []⟩ a) b := by
    simp [run_sync, List.foldl_cons, List.foldl_nil]
  -- first file, dedup on: fresh upload
  have hA := process_file_upload_dedup_fresh env destination
      ⟨remote0, ShaCache.empty, [], ⟨2, 0, 0, 0, 0, 0, 0⟩, []⟩ a hra rfl rfl rfl hsha hua
  -- second file, dedup on: confirmed duplicate of the first
  have hB := process_file_duplicate env destination
      ({ (⟨remote0, ShaCache.empty, [], ⟨2, 0, 0, 0, 0, 0, 0⟩, []⟩ : SyncState) with
          remote := alPut remote0 (destination.key_for a.rel_posix)
                      (uploadMeta a (env.hashOf a.path)),
          cache := (ShaCache.empty.set_sha a.path a.size a.mtime
                      (env.hashOf a.path) none).set_sha
                     a.path a.size a.mtime (env.hashOf a.path)
                     (some (destination.uri_for_key (destination.key_for a.rel_posix))),
          run_hash_map := alPut [] (env.hashOf a.path)
                            (destination.uri_for_key (destination.key_for a.rel_posix)),
          summary := { (⟨2, 0, 0, 0, 0, 0, 0⟩ : Summary) with
            uploaded := (0 : Nat) + 1,
            uploaded_bytes := (0 : Int) + a.size },
          puts := [] ++ [destination.key_for a.rel_posix] })
      b (destination.key_for a.rel_posix) (uploadMeta a (env.hashOf a.path))
      (by
        show alGet (alPut remote0 (destination.key_for a.rel_posix)
            (uploadMeta a (env.hashOf a.path))) (destination.key_for b.rel_posix) = none
        rw [alGet_alPut_ne _ _ _ _ hkey]
        exact hrb)
      (by
        show ((ShaCache.empty.set_sha a.path a.size a.mtime (env.hashOf a.path) none).set_sha
            a.path a.size a.mtime (env.hashOf a.path)
            (some (destination.uri_for_key (destination.key_for a.rel_posix)))).get_sha
            b.path b.size b.mtime = none
        rw [get_sha_set_sha_other _ _ _ _ _ _ _ _ _ hpath,
            get_sha_set_sha_other _ _ _ _ _ _ _ _ _ hpath]
        rfl)
      (by
        show alGet (alPut [] (env.hashOf a.path)
            (destination.uri_for_key (destination.key_for a.rel_posix)))
            (env.hashOf b.path) = some _
        rw [← hab]
        exact alGet_alPut_self _ _ _)
      (by
        show alGet (alPut remote0 (destination.key_for a.rel_posix)
            (uploadMeta a (env.hashOf a.path))) (destination.key_for a.rel_posix) = some _
        exact alGet_alPut_self _ _ _)
  -- first and second file, dedup off: two fresh uploads
  have hA' := process_file_upload_nodedup false env destination
      ⟨remote0, ShaCache.empty, [], ⟨2, 0, 0, 0, 0, 0, 0⟩, []⟩ a hra rfl hua
  have hB' := process_file_upload_nodedup false env destination
      ({ (⟨remote0, ShaCache.empty, [], ⟨2, 0, 0, 0, 0, 0, 0⟩, []⟩ : SyncState) with
          remote := if false then remote0
            else alPut remote0 (destination.key_for a.rel_posix)
                   (uploadMeta a (env.hashOf a.path)),
          cache := (ShaCache.empty.set_sha a.path a.size a.mtime
                      (env.hashOf a.path) none).set_sha
                     a.path a.size a.mtime (env.hashOf a.path)
                     (some (destination.uri_for_key (destination.key_for a.rel_posix))),
          run_hash_map := alPut [] (env.hashOf a.path)
                            (destination.uri_for_key (destination.key_for a.rel_posix)),
          summary := { (⟨2, 0, 0, 0, 0, 0, 0⟩ : Summary) with
            uploaded := (0 : Nat) + 1,
            uploaded_bytes := (0 : Int) + a.size },
          puts := if false then ([] : List String)
            else [] ++ [destination.key_for a.rel_posix] })
      b
      (by
        show alGet (if false then remote0
            else alPut remote0 (destination.key_for a.rel_posix)
                   (uploadMeta a (env.hashOf a.path))) (destination.key_for b.rel_posix) = none
        rw [if_neg (by simp)]
        rw [alGet_alPut_ne _ _ _ _ hkey]
        exact hrb)
      (by
        show ((ShaCache.empty.set_sha a.path a.size a.mtime (env.hashOf a.path) none).set_sha
            a.path a.size a.mtime (env.hashOf a.path)
            (some (destination.uri_for_key (destination.key_for a.rel_posix)))).get_sha
            b.path b.size b.mtime = none
        rw [get_sha_set_sha_other _ _ _ _ _ _ _ _ _ hpath,
            get_sha_set_sha_other _ _ _ _ _ _ _ _ _ hpath]
        rfl)
      hub
  rw [hded, hplain, hA, hB, hA', hB']
  refine ⟨by simp, by simp, by simp, ?_, ?_, by simp, by simp, by simp⟩
  · rw [← hab]
    simp [ShaCache.set_sha, huria]
  · show alGet (alPut remote0 (destination.key_for a.rel_posix)
        (uploadMeta a (env.hashOf a.path))) (destination.key_for b.rel_posix) = none
    rw [alGet_alPut_ne _ _ _ _ hkey]
    exact hrb

/-- Concrete instantiation of the C5 theorem: two files with equal hashes
under an empty bucket and cache give one upload and one duplicate. -/
theorem dedup_two_identical_files_witness :
    (run_sync ⟨false, false, false, true⟩
        ⟨true, fun _ => "h", fun _ => "", fun _ => true, fun _ => false⟩
        ⟨"bkt", ""⟩ [⟨"/d/a.jpg", "a.jpg", 1, 10⟩, ⟨"/d/b.jpg", "b.jpg", 1, 10⟩]
        [] ShaCache.empty).2.1.puts
      = [S3Destination.key_for ⟨"bkt", ""⟩ "a.jpg"]
    ∧ (run_sync ⟨false, false, false, true⟩
        ⟨true, fun _ => "h", fun _ => "", fun _ => true, fun _ => false⟩
        ⟨"bkt", ""⟩ [⟨"/d/a.jpg", "a.jpg", 1, 10⟩, ⟨"/d/b.jpg", "b.jpg", 1, 10⟩]
        [] ShaCache.empty).2.1.summary.duplicates = 1
    ∧ (run_sync ⟨false, false, false, false⟩
        ⟨true, fun _ => "h", fun _ => "", fun _ => true, fun _ => false⟩
        ⟨"bkt", ""⟩ [⟨"/d/a.jpg", "a.jpg", 1, 10⟩, ⟨"/d/b.jpg", "b.jpg", 1, 10⟩]
        [] ShaCache.empty).2.1.summary.uploaded = 2 :=
  ⟨(dedup_two_identical_files
      ⟨true, fun _ => "h", fun _ => "", fun _ => true, fun _ => false⟩ ⟨"bkt", ""⟩
      ⟨"/d/a.jpg", "a.jpg", 1, 10⟩ ⟨"/d/b.jpg", "b.jpg", 1, 10⟩ []
      rfl (by decide) (by decide) (by decide) rfl rfl rfl rfl).1,
   (dedup_two_identical_files
      ⟨true, fun _ => "h", fun _ => "", fun _ => true, fun _ => false⟩ ⟨"bkt", ""⟩
      ⟨"/d/a.jpg", "a.jpg", 1, 10⟩ ⟨"/d/b.jpg", "b.jpg", 1, 10⟩ []
      rfl (by decide) (by decide) (by decide) rfl rfl rfl rfl).2.2.1,
   (dedup_two_identical_files
      ⟨true, fun _ => "h", fun _ => "", fun _ => true, fun _ => false⟩ ⟨"bkt", ""⟩
      ⟨"/d/a.jpg", "a.jpg", 1, 10⟩ ⟨"/d/b.jpg", "b.jpg", 1, 10⟩ []
      rfl (by decide) (by decide) (by decide) rfl rfl rfl rfl).2.2.2.2.2.2.1⟩

end S3Rsync
